import Mathlib

/-!
Shallow embedding of the batching Kinesis producer in `kinesis.go`
(package kinesis).  Byte sequences are modelled as `List Nat` (one `Nat`
per byte); Go string length and slice length both become `List.length`.
The bounded record channel is modelled as an explicit queue (a list), the
single-threaded assembler loop as a step function over an event trace, and
the recursive flush/retry procedure as a step machine consuming one
submission outcome per attempt.
-/

namespace Kinesis

/-- Size constants from kinesis.go lines 12-16: one megabyte, the maximal
single record size, and the maximal aggregate request size. -/
def megaByte : Nat := 2 ^ 20

def maxRecordSize : Nat := megaByte

def maxRequestSize : Nat := 5 * megaByte

/-- The one public error of the package: ErrRecordSizeExceeded. -/
inductive KError where
  | recordSizeExceeded
deriving DecidableEq, Repr

/-- A PutRecordsRequestEntry: payload bytes plus a partition key.  In the
producer the payload already includes the configured separator, appended
by Put before enqueue. -/
structure Rec where
  data : List Nat
  partitionKey : List Nat
deriving DecidableEq, Repr

/-- Size accounting for one entry as the loop computes it at line 86:
len(*record.PartitionKey) + len(record.Data). -/
def recSize (r : Rec) : Nat := r.partitionKey.length + r.data.length

/-- Put (kinesis.go lines 41-52).  The queue is the records channel,
returned explicitly.  On an oversized input Put returns
ErrRecordSizeExceeded and does not enqueue; otherwise it enqueues one
entry whose payload is data with the separator appended, and returns no
error. -/
def put (separator : List Nat) (queue : List Rec) (data : List Nat)
    (partitionKey : List Nat) : Option KError × List Rec :=
  if data.length + partitionKey.length + separator.length > maxRecordSize then
    (some KError.recordSizeExceeded, queue)
  else
    (none, queue ++ [{ data := data ++ separator, partitionKey := partitionKey }])

/-- One entry of the PutRecords result.  Only the error code drives
control flow (the message is merely logged), so the message is omitted;
error codes are opaque and modelled as Nat. -/
structure ResultEntry where
  errorCode : Option Nat
deriving DecidableEq, Repr

/-- The failures helper (kinesis.go lines 173-180), indexing from i: it
walks the response and, for each entry carrying a non-nil error code,
selects the submitted record at the same position.  A Go index out of
range panics; that is modelled by returning none. -/
def failuresAux (records : List Rec) (response : List ResultEntry) (i : Nat) :
    Option (List Rec) :=
  match response with
  | [] => some []
  | e :: rest =>
    if e.errorCode.isSome then
      match records[i]? with
      | none => none
      | some r => (failuresAux records rest (i + 1)).map (fun out => r :: out)
    else
      failuresAux records rest (i + 1)

/-- failures records response, starting at index 0. -/
def failures (records : List Rec) (response : List ResultEntry) :
    Option (List Rec) :=
  failuresAux records response 0

/-- Number of response entries carrying a non-nil error code. -/
def countErr (response : List ResultEntry) : Nat :=
  (response.filter (fun e => e.errorCode.isSome)).length

/-- State of the assembler loop (kinesis.go lines 74-121): the pending
queue (the records channel), the current buffer and its running byte
size, the drain flag, the list of batches passed to flush so far (in
order), and whether the loop has returned. -/
structure LoopState where
  queue : List Rec
  buf : List Rec
  bufSize : Nat
  drain : Bool
  flushed : List (List Rec)
  exited : Bool
deriving DecidableEq, Repr

/-- Total byte size of a batch, the sum of its entry sizes. -/
def batchSize (b : List Rec) : Nat := (b.map recSize).sum

/-- Pass the current buffer to flush and reset buffer and byte counter
(the buf = nil, bufSize = 0 pattern after each p.flush call in loop). -/
def flushReset (s : LoopState) : LoopState :=
  { s with flushed := s.flushed ++ [s.buf], buf := [], bufSize := 0 }

/-- Events the select statement of the loop multiplexes: a receive from
the records channel, a ticker tick, and the stop signal on the done
channel.  A trace of events reifies the scheduler choices. -/
inductive Event where
  | record
  | tick
  | stop
deriving DecidableEq, Repr

/-- Lines 88-92: flush first when appending the record would push the
byte size past maxRequestSize. -/
def sizeCheck (r : Rec) (s : LoopState) : LoopState :=
  if s.bufSize + recSize r > maxRequestSize then flushReset s else s

/-- Lines 94-95: append the record and account its size. -/
def appendRecord (r : Rec) (s : LoopState) : LoopState :=
  { s with buf := s.buf ++ [r], bufSize := s.bufSize + recSize r }

/-- Lines 97-101: flush when the buffer has reached BufferSize records. -/
def countCheck (bufferSize : Nat) (s : LoopState) : LoopState :=
  if bufferSize ≤ s.buf.length then flushReset s else s

/-- Lines 103-106: return when draining and the queue is now empty. -/
def drainCheck (s : LoopState) : LoopState :=
  if s.drain && s.queue.isEmpty then { s with exited := true } else s

/-- The record-arrival arm of the select (kinesis.go lines 85-106).  A
receive on an empty open channel blocks, so the event is a no-op there.
Otherwise: dequeue, flush first when the byte size would exceed
maxRequestSize, append the record, flush when the count reaches
BufferSize, and exit when draining and the queue is now empty. -/
def handleRecord (bufferSize : Nat) (s : LoopState) : LoopState :=
  match s.queue with
  | [] => s
  | r :: rest =>
    drainCheck (countCheck bufferSize (appendRecord r (sizeCheck r { s with queue := rest })))

/-- One iteration of the loop select (kinesis.go lines 83-120), driven by
the event the scheduler picked.  After the loop has returned further
events are meaningless and leave the state unchanged. -/
def loopStep (bufferSize : Nat) (s : LoopState) (e : Event) : LoopState :=
  if s.exited then s
  else
    match e with
    | Event.record => handleRecord bufferSize s
    | Event.tick => if 0 < s.buf.length then flushReset s else s
    | Event.stop =>
      let s1 : LoopState := { s with drain := true }
      if s1.queue.isEmpty then { s1 with exited := true } else s1

/-- Run the loop over a trace of events. -/
def loopRun (bufferSize : Nat) (s : LoopState) (es : List Event) : LoopState :=
  es.foldl (loopStep bufferSize) s

/-- Initial loop state over a queue of already enqueued records: empty
buffer, not draining, nothing flushed. -/
def initLoop (queue : List Rec) : LoopState :=
  { queue := queue, buf := [], bufSize := 0, drain := false
  , flushed := [], exited := false }

/-- Modelled from the spec: the Backoff Policy (spec section 4.5) comes
from the configuration and its implementation is not under src.  Duration
is computed from an internal attempt counter, monotonically non-decreasing
over consecutive failures, and Reset clears the counter.  The counter is
made explicit here; the duration function is an arbitrary parameter d of
the flush machine, with d 0 the baseline duration. -/
structure BackoffState where
  attempts : Nat
deriving DecidableEq, Repr

/-- Outcome of one PutRecords attempt: a transport-level error (err != nil
at line 131), or a structured result carrying FailedRecordCount and the
per-record result entries. -/
inductive Outcome where
  | transportError
  | result (failedRecordCount : Nat) (entries : List ResultEntry)
deriving DecidableEq, Repr

/-- State of the flush/retry procedure (kinesis.go lines 124-158) for one
top-level flush call: the batch the next attempt will submit, the backoff
counter, the batches submitted so far, the sleep durations so far, the
number of Backoff.Reset calls, whether flush has returned, and whether an
index out of range occurred inside failures. -/
structure FlushState where
  pending : List Rec
  backoff : BackoffState
  submissions : List (List Rec)
  sleeps : List Nat
  resets : Nat
  done : Bool
  crashed : Bool
deriving DecidableEq, Repr

/-- One attempt of flush, consuming the outcome of its PutRecords call.
On a transport error it sleeps Backoff.Duration and retries the whole
batch (lines 131-136).  On zero FailedRecordCount it resets the policy
and returns (lines 138-143).  Otherwise it sleeps Backoff.Duration and
retries failures(records, out.Records) (lines 145-158). -/
def flushStep (d : Nat → Nat) (s : FlushState) (o : Outcome) : FlushState :=
  if s.done || s.crashed then s
  else
    let s0 : FlushState := { s with submissions := s.submissions ++ [s.pending] }
    match o with
    | Outcome.transportError =>
      { s0 with sleeps := s0.sleeps ++ [d s0.backoff.attempts]
              , backoff := { attempts := s0.backoff.attempts + 1 } }
    | Outcome.result failed response =>
      if failed = 0 then
        { s0 with backoff := { attempts := 0 }, resets := s0.resets + 1
                , done := true }
      else
        match failures s0.pending response with
        | none => { s0 with crashed := true }
        | some nxt =>
          { s0 with sleeps := s0.sleeps ++ [d s0.backoff.attempts]
                  , backoff := { attempts := s0.backoff.attempts + 1 }
                  , pending := nxt }

/-- Run the flush machine over a list of attempt outcomes. -/
def flushRun (d : Nat → Nat) (s : FlushState) (os : List Outcome) : FlushState :=
  os.foldl (flushStep d) s

/-- Initial flush state for one top-level flush of a batch, with the
backoff counter carried over from the producer. -/
def initFlush (records : List Rec) (b : BackoffState) : FlushState :=
  { pending := records, backoff := b, submissions := [], sleeps := []
  , resets := 0, done := false, crashed := false }

/-- Checks that each structured outcome in a trace is a well-formed
response for the batch submitted at that point: at most one result entry
per submitted record, and FailedRecordCount equal to the number of
entries carrying an error code. -/
def consistentOutcomes (d : Nat → Nat) (s : FlushState) : List Outcome → Bool
  | [] => true
  | o :: os =>
    (match o with
     | Outcome.transportError => true
     | Outcome.result failed response =>
       decide (response.length ≤ s.pending.length) &&
         decide (countErr response = failed)) &&
    consistentOutcomes d (flushStep d s o) os

/-- A batch the loop may legitimately hand to flush: within the aggregate
request size, within the configured count, and nonempty. -/
def goodBatch (bufferSize : Nat) (b : List Rec) : Prop :=
  batchSize b ≤ maxRequestSize ∧ b.length ≤ bufferSize ∧ b ≠ []

/-- Invariant of the assembler loop: the byte counter mirrors the buffer,
the buffer respects both limits with room for one more record, every
queued record respects the per-record limit, and every batch flushed so
far was good. -/
def LoopInv (bufferSize : Nat) (s : LoopState) : Prop :=
  s.bufSize = batchSize s.buf ∧
  batchSize s.buf ≤ maxRequestSize ∧
  s.buf.length < bufferSize ∧
  (∀ r ∈ s.queue, recSize r ≤ maxRecordSize) ∧
  (∀ b ∈ s.flushed, goodBatch bufferSize b)

/-- A concrete duration function for counterexamples and witnesses:
baseline 1, growing with the attempt counter. -/
def demoDuration : Nat → Nat := fun n => n + 1

/-- Small concrete records for witnesses and counterexamples. -/
def recA : Rec := { data := [1], partitionKey := [10] }

def recB : Rec := { data := [2], partitionKey := [10] }

def recC : Rec := { data := [3], partitionKey := [10] }

theorem failuresAux_eq (response : List ResultEntry) :
    ∀ (records : List Rec) (i : Nat), i + response.length ≤ records.length →
    failuresAux records response i =
      some ((((records.drop i).zip response).filter
        (fun p => (p.2).errorCode.isSome)).map Prod.fst) := by
  induction response with
  | nil => intro records i h; simp [failuresAux]
  | cons e rest ih =>
    intro records i h
    have hi : i < records.length := by simp at h; omega
    have hdrop : records.drop i = records[i] :: records.drop (i + 1) :=
      List.drop_eq_getElem_cons hi
    have hget : records[i]? = some records[i] := List.getElem?_eq_getElem hi
    have hrec := ih records (i + 1) (by simp at h ⊢; omega)
    by_cases he : e.errorCode.isSome
    · rw [failuresAux]
      simp only [he, if_true, hget, hrec, hdrop, List.zip_cons_cons, List.filter_cons]
      simp [he]
    · rw [failuresAux]
      simp only [he, if_false, hrec, hdrop, List.zip_cons_cons, List.filter_cons]
      simp [he]

theorem failures_eq (records : List Rec) (response : List ResultEntry)
    (h : response.length ≤ records.length) :
    failures records response =
      some (((records.zip response).filter
        (fun p => (p.2).errorCode.isSome)).map Prod.fst) := by
  simpa [failures] using failuresAux_eq response records 0 (by omega)

theorem filter_zip_length (response : List ResultEntry) :
    ∀ records : List Rec, response.length ≤ records.length →
    ((records.zip response).filter (fun p => (p.2).errorCode.isSome)).length
      = countErr response := by
  induction response with
  | nil => intro records h; simp [countErr]
  | cons e rest ih =>
    intro records h
    match records with
    | [] => simp at h
    | r :: rs =>
      have hr := ih rs (by simp at h; omega)
      simp only [countErr, List.zip_cons_cons, List.filter_cons] at hr ⊢
      by_cases he : e.errorCode.isSome
      · simp [he, hr]
      · simp [he, hr]

theorem filter_zip_sublist (records : List Rec) :
    ∀ response : List ResultEntry,
    List.Sublist
      (((records.zip response).filter
        (fun p => (p.2).errorCode.isSome)).map Prod.fst) records := by
  induction records with
  | nil => intro response; simp
  | cons r rs ih =>
    intro response
    match response with
    | [] => simp
    | e :: rest =>
      by_cases he : e.errorCode.isSome
      · simpa [List.filter_cons, he] using List.Sublist.cons₂ r (ih rest)
      · simpa [List.filter_cons, he] using List.Sublist.cons r (ih rest)

/-- C3: Put with an oversized input returns ErrRecordSizeExceeded and
leaves the queue untouched; Put with an input at or under the limit
returns no error and appends exactly one entry, the payload with the
separator appended. -/
theorem c3_put_size_check (sep : List Nat) (q : List Rec)
    (data : List Nat) (pk : List Nat) :
    (maxRecordSize < data.length + pk.length + sep.length →
      put sep q data pk = (some KError.recordSizeExceeded, q))
    ∧ (data.length + pk.length + sep.length ≤ maxRecordSize →
      put sep q data pk = (none, q ++ [{ data := data ++ sep, partitionKey := pk }])) := by
  constructor
  · intro h; simp [put, h]
  · intro h; simp [put, Nat.not_lt.mpr h]

theorem c3_witness :
    put [] [] (List.replicate (maxRecordSize + 1) 0) []
      = (some KError.recordSizeExceeded, [])
    ∧ put [7] [] [1, 2] [3]
      = (none, [] ++ [{ data := [1, 2] ++ [7], partitionKey := [3] }]) :=
  ⟨(c3_put_size_check [] [] (List.replicate (maxRecordSize + 1) 0) []).1
     (by rw [List.length_replicate]; simp only [List.length_nil]; omega),
   (c3_put_size_check [7] [] [1, 2] [3]).2
     (by norm_num [maxRecordSize, megaByte])⟩

/-- C9: the size check in Put is strict: a record whose total size equals
maxRecordSize exactly is accepted and enqueued with payload
data ++ separator, and Put rejects exactly when the total strictly
exceeds maxRecordSize. -/
theorem c9_boundary_accepts_exact_limit (sep : List Nat) (q : List Rec)
    (data : List Nat) (pk : List Nat) :
    (data.length + pk.length + sep.length = maxRecordSize →
      put sep q data pk = (none, q ++ [{ data := data ++ sep, partitionKey := pk }]))
    ∧ ((put sep q data pk).1.isSome = true ↔
        maxRecordSize < data.length + pk.length + sep.length) := by
  constructor
  · intro h; simp [put, Nat.not_lt.mpr (Nat.le_of_eq h)]
  · by_cases h : maxRecordSize < data.length + pk.length + sep.length
    · simp [put, h]
    · simp [put, h]

theorem c9_witness :
    put [] [] (List.replicate maxRecordSize 0) []
      = (none, [{ data := List.replicate maxRecordSize 0, partitionKey := [] }]) := by
  have h := (c9_boundary_accepts_exact_limit [] [] (List.replicate maxRecordSize 0) []).1
    (by rw [List.length_replicate]; simp only [List.length_nil]; omega)
  simpa using h

/-- C10: the positional pairing in failures is safe whenever the response
is no longer than the submitted batch, and an overlong response whose
extra entry carries an error code makes the index access fall out of
bounds. -/
theorem c10_failures_in_bounds :
    (∀ (records : List Rec) (response : List ResultEntry),
      response.length ≤ records.length → (failures records response).isSome = true)
    ∧ (∃ (records : List Rec) (response : List ResultEntry),
      records.length < response.length ∧ failures records response = none) := by
  constructor
  · intro records response h
    rw [failures_eq records response h]
    rfl
  · exact ⟨[], [{ errorCode := some 0 }], by decide, by decide⟩

theorem c10_witness : (failures [recA, recB] [{ errorCode := some 0 }]).isSome = true :=
  c10_failures_in_bounds.1 [recA, recB] [{ errorCode := some 0 }] (by decide)

/-- C4: on a structured partial failure, the batch the next attempt
submits consists exactly of the originally submitted records whose result
entries carry a non-nil error code, unchanged, in their original relative
order, and their number is the number of error-carrying entries. -/
theorem c4_retry_narrowing (d : Nat → Nat) (s : FlushState) (f : Nat)
    (resp : List ResultEntry) (hd : s.done = false) (hc : s.crashed = false)
    (hf : f ≠ 0) (hlen : resp.length ≤ s.pending.length) :
    (flushStep d s (Outcome.result f resp)).pending
      = ((s.pending.zip resp).filter (fun p => (p.2).errorCode.isSome)).map Prod.fst
    ∧ (flushStep d s (Outcome.result f resp)).pending.length = countErr resp
    ∧ List.Sublist (flushStep d s (Outcome.result f resp)).pending s.pending := by
  have heq := failures_eq s.pending resp hlen
  have hpend : (flushStep d s (Outcome.result f resp)).pending
      = ((s.pending.zip resp).filter (fun p => (p.2).errorCode.isSome)).map Prod.fst := by
    simp [flushStep, hd, hc, hf, heq]
  refine ⟨hpend, ?_, ?_⟩
  · rw [hpend, List.length_map]
    exact filter_zip_length resp s.pending hlen
  · rw [hpend]
    exact filter_zip_sublist s.pending resp

theorem c4_witness :
    (flushStep demoDuration (initFlush [recA, recB, recC] { attempts := 0 })
      (Outcome.result 1 [{ errorCode := none }, { errorCode := some 5 }, { errorCode := none }])).pending
      = [recB] := by
  have h := c4_retry_narrowing demoDuration (initFlush [recA, recB, recC] { attempts := 0 })
    1 [{ errorCode := none }, { errorCode := some 5 }, { errorCode := none }]
    rfl rfl (by decide) (by decide)
  rw [h.1]
  decide

/-- C1: the code loses buffered records on drain.  With BufferSize 2 and
three valid records enqueued before Stop, the loop flushes the first two
on the count limit and then exits on drain while the third record still
sits in its buffer, never presenting it to the submission capability.
This contradicts the spec and the doc comment of Stop in kinesis.go
(Flushes any in-flight data). -/
theorem c1_drain_exits_without_flushing_buffer :
    loopRun 2 (initLoop [recA, recB, recC]) [Event.stop, Event.record, Event.record, Event.record]
      = { queue := [], buf := [recC], bufSize := 2, drain := true
        , flushed := [[recA, recB]], exited := true }
    ∧ recC ∉ (loopRun 2 (initLoop [recA, recB, recC])
        [Event.stop, Event.record, Event.record, Event.record]).flushed.flatten
    ∧ recSize recC ≤ maxRecordSize := by
  refine ⟨rfl, ?_, ?_⟩
  · show recC ∉ ([[recA, recB]] : List (List Rec)).flatten
    decide
  · show 2 ≤ maxRecordSize
    norm_num [maxRecordSize, megaByte]

theorem maxRecordSize_le_maxRequestSize : maxRecordSize ≤ maxRequestSize := by
  norm_num [maxRecordSize, maxRequestSize, megaByte]

theorem batchSize_nil : batchSize [] = 0 := rfl

theorem batchSize_append_single (b : List Rec) (r : Rec) :
    batchSize (b ++ [r]) = batchSize b + recSize r := by
  simp [batchSize]

theorem LoopInv_set_exited (bufferSize : Nat) (s : LoopState) (b : Bool) :
    LoopInv bufferSize { s with exited := b } ↔ LoopInv bufferSize s :=
  Iff.rfl

theorem LoopInv_set_drain (bufferSize : Nat) (s : LoopState) (b : Bool) :
    LoopInv bufferSize { s with drain := b } ↔ LoopInv bufferSize s :=
  Iff.rfl

theorem flushReset_inv (bufferSize : Nat) (s : LoopState)
    (hgood : goodBatch bufferSize s.buf)
    (hq : ∀ r ∈ s.queue, recSize r ≤ maxRecordSize)
    (h5 : ∀ b ∈ s.flushed, goodBatch bufferSize b)
    (hbs : 0 < bufferSize) :
    LoopInv bufferSize (flushReset s) := by
  refine ⟨by simp [flushReset, batchSize], by simp [flushReset, batchSize], ?_, ?_, ?_⟩
  · simpa [flushReset] using hbs
  · simpa [flushReset] using hq
  · intro b hb
    simp only [flushReset] at hb
    rcases List.mem_append.mp hb with hb | hb
    · exact h5 b hb
    · rw [List.mem_singleton.mp hb]
      exact hgood

theorem drainCheck_inv (bufferSize : Nat) (s : LoopState)
    (h : LoopInv bufferSize s) : LoopInv bufferSize (drainCheck s) := by
  unfold drainCheck
  split
  · exact (LoopInv_set_exited bufferSize s true).mpr h
  · exact h

theorem countCheck_inv (bufferSize : Nat) (s : LoopState)
    (h1 : s.bufSize = batchSize s.buf) (h2 : batchSize s.buf ≤ maxRequestSize)
    (h3 : s.buf.length ≤ bufferSize) (hne : s.buf ≠ [])
    (h4 : ∀ x ∈ s.queue, recSize x ≤ maxRecordSize)
    (h5 : ∀ b ∈ s.flushed, goodBatch bufferSize b)
    (hbs : 0 < bufferSize) :
    LoopInv bufferSize (countCheck bufferSize s) := by
  unfold countCheck
  split
  · exact flushReset_inv bufferSize s ⟨h2, h3, hne⟩ h4 h5 hbs
  · next hc => exact ⟨h1, h2, Nat.lt_of_not_le hc, h4, h5⟩

theorem appendStage (bufferSize : Nat) (r : Rec) (s : LoopState)
    (h1 : s.bufSize = batchSize s.buf) (h2 : batchSize s.buf ≤ maxRequestSize)
    (h3 : s.buf.length < bufferSize)
    (h4 : ∀ x ∈ s.queue, recSize x ≤ maxRecordSize)
    (h5 : ∀ b ∈ s.flushed, goodBatch bufferSize b)
    (hr : recSize r ≤ maxRecordSize) :
    (appendRecord r (sizeCheck r s)).bufSize = batchSize (appendRecord r (sizeCheck r s)).buf
    ∧ batchSize (appendRecord r (sizeCheck r s)).buf ≤ maxRequestSize
    ∧ (appendRecord r (sizeCheck r s)).buf.length ≤ bufferSize
    ∧ (appendRecord r (sizeCheck r s)).buf ≠ []
    ∧ (∀ x ∈ (appendRecord r (sizeCheck r s)).queue, recSize x ≤ maxRecordSize)
    ∧ (∀ b ∈ (appendRecord r (sizeCheck r s)).flushed, goodBatch bufferSize b) := by
  have hmax := maxRecordSize_le_maxRequestSize
  unfold sizeCheck
  split
  · next hc =>
    have hne : s.buf ≠ [] := by
      intro hnil
      rw [hnil, batchSize_nil] at h1
      rw [h1] at hc
      omega
    refine ⟨?_, ?_, ?_, ?_, ?_, ?_⟩
    · simp [appendRecord, flushReset, batchSize]
    · simp only [appendRecord, flushReset]
      simp [batchSize]
      omega
    · simp only [appendRecord, flushReset]
      simp
      omega
    · simp [appendRecord, flushReset]
    · simpa [appendRecord, flushReset] using h4
    · intro b hb
      simp only [appendRecord, flushReset] at hb
      rcases List.mem_append.mp hb with hb | hb
      · exact h5 b hb
      · rw [List.mem_singleton.mp hb]
        exact ⟨h2, Nat.le_of_lt h3, hne⟩
  · next hc =>
    refine ⟨?_, ?_, ?_, ?_, ?_, ?_⟩
    · simp [appendRecord, batchSize_append_single, h1]
    · simp only [appendRecord]
      rw [batchSize_append_single]
      omega
    · simp only [appendRecord, List.length_append, List.length_cons, List.length_nil]
      omega
    · simp [appendRecord]
    · simpa [appendRecord] using h4
    · simpa [appendRecord] using h5

theorem handleRecord_inv (bufferSize : Nat) (s : LoopState)
    (h : LoopInv bufferSize s) : LoopInv bufferSize (handleRecord bufferSize s) := by
  obtain ⟨h1, h2, h3, h4, h5⟩ := h
  cases hq : s.queue with
  | nil =>
    simp only [handleRecord, hq]
    exact ⟨h1, h2, h3, h4, h5⟩
  | cons r rest =>
    have hr : recSize r ≤ maxRecordSize := h4 r (by rw [hq]; exact List.mem_cons_self r rest)
    have hrest : ∀ x ∈ rest, recSize x ≤ maxRecordSize :=
      fun x hx => h4 x (by rw [hq]; exact List.mem_cons_of_mem r hx)
    have hbs : 0 < bufferSize := Nat.lt_of_le_of_lt (Nat.zero_le _) h3
    simp only [handleRecord, hq]
    have hstage := appendStage bufferSize r { s with queue := rest }
      h1 h2 h3 hrest h5 hr
    obtain ⟨g1, g2, g3, g4, g5, g6⟩ := hstage
    exact drainCheck_inv bufferSize _
      (countCheck_inv bufferSize _ g1 g2 g3 g4 g5 g6 hbs)

theorem loopStep_inv (bufferSize : Nat) (s : LoopState) (e : Event)
    (h : LoopInv bufferSize s) : LoopInv bufferSize (loopStep bufferSize s e) := by
  unfold loopStep
  split
  · exact h
  · match e with
    | Event.record => exact handleRecord_inv bufferSize s h
    | Event.tick =>
      obtain ⟨h1, h2, h3, h4, h5⟩ := h
      dsimp only
      split
      · next hpos =>
        exact flushReset_inv bufferSize s
          ⟨h2, Nat.le_of_lt h3, by intro hnil; rw [hnil] at hpos; simp at hpos⟩
          h4 h5 (Nat.lt_of_le_of_lt (Nat.zero_le _) h3)
      · exact ⟨h1, h2, h3, h4, h5⟩
    | Event.stop =>
      dsimp only
      split
      · exact (LoopInv_set_exited bufferSize _ true).mpr
          ((LoopInv_set_drain bufferSize s true).mpr h)
      · exact (LoopInv_set_drain bufferSize s true).mpr h

theorem loopRun_inv (bufferSize : Nat) (es : List Event) :
    ∀ s : LoopState, LoopInv bufferSize s →
      LoopInv bufferSize (loopRun bufferSize s es) := by
  induction es with
  | nil => intro s h; simpa [loopRun] using h
  | cons e es ih =>
    intro s h
    have hstep := loopStep_inv bufferSize s e h
    simpa [loopRun, List.foldl_cons] using ih (loopStep bufferSize s e) hstep

theorem initLoop_inv (bufferSize : Nat) (q : List Rec)
    (hb : 1 ≤ bufferSize) (hq : ∀ r ∈ q, recSize r ≤ maxRecordSize) :
    LoopInv bufferSize (initLoop q) := by
  refine ⟨rfl, ?_, ?_, ?_, ?_⟩
  · simp [initLoop, batchSize]
  · simpa [initLoop] using hb
  · simpa [initLoop] using hq
  · simp [initLoop]

/-- C2: every batch the loop passes to flush respects both invariants:
total byte size at most maxRequestSize (5 MiB) and record count at most
the configured BufferSize, provided the configured count is positive and
every enqueued record is at most maxRecordSize (1 MiB). -/
theorem c2_loop_batches_within_limits (bufferSize : Nat) (q : List Rec)
    (es : List Event) (hb : 1 ≤ bufferSize)
    (hq : ∀ r ∈ q, recSize r ≤ maxRecordSize) :
    ∀ b ∈ (loopRun bufferSize (initLoop q) es).flushed,
      batchSize b ≤ maxRequestSize ∧ b.length ≤ bufferSize := by
  have h := loopRun_inv bufferSize es (initLoop q) (initLoop_inv bufferSize q hb hq)
  intro b hmem
  obtain ⟨hsize, hlen, _⟩ := h.2.2.2.2 b hmem
  exact ⟨hsize, hlen⟩

theorem c2_witness :
    batchSize [recA, recB] ≤ maxRequestSize ∧ [recA, recB].length ≤ 2 := by
  refine c2_loop_batches_within_limits 2 [recA, recB, recC]
    [Event.record, Event.record, Event.record] (by omega) ?_ [recA, recB] ?_
  · intro r hr
    simp only [List.mem_cons, List.not_mem_nil, or_false] at hr
    rcases hr with h | h | h <;>
      (rw [h]; norm_num [recSize, recA, recB, recC, maxRecordSize, megaByte])
  · show [recA, recB] ∈ (loopRun 2 (initLoop [recA, recB, recC])
      [Event.record, Event.record, Event.record]).flushed
    show [recA, recB] ∈ ([[recA, recB]] : List (List Rec))
    exact List.mem_singleton.mpr rfl

theorem flushStep_transport (d : Nat → Nat) (s : FlushState)
    (hd : s.done = false) (hc : s.crashed = false) :
    flushStep d s Outcome.transportError
      = { s with submissions := s.submissions ++ [s.pending]
               , sleeps := s.sleeps ++ [d s.backoff.attempts]
               , backoff := { attempts := s.backoff.attempts + 1 } } := by
  simp [flushStep, hd, hc]

theorem flushRun_transport (d : Nat → Nat) (n : Nat) :
    ∀ s : FlushState, s.done = false → s.crashed = false →
    (flushRun d s (List.replicate n Outcome.transportError)).pending = s.pending
    ∧ (flushRun d s (List.replicate n Outcome.transportError)).done = false
    ∧ (flushRun d s (List.replicate n Outcome.transportError)).crashed = false
    ∧ (flushRun d s (List.replicate n Outcome.transportError)).submissions
        = s.submissions ++ List.replicate n s.pending
    ∧ (flushRun d s (List.replicate n Outcome.transportError)).sleeps.length
        = s.sleeps.length + n := by
  induction n with
  | zero => intro s hd hc; simp [flushRun, hd, hc]
  | succ n ih =>
    intro s hd hc
    have hstep := flushStep_transport d s hd hc
    have hrun : flushRun d s (List.replicate (n + 1) Outcome.transportError)
        = flushRun d (flushStep d s Outcome.transportError)
            (List.replicate n Outcome.transportError) := by
      rw [List.replicate_succ, flushRun, List.foldl_cons]
      rfl
    obtain ⟨ih1, ih2, ih3, ih4, ih5⟩ :=
      ih (flushStep d s Outcome.transportError)
        (by rw [hstep]; exact hd) (by rw [hstep]; exact hc)
    rw [hrun]
    refine ⟨by rw [ih1, hstep], ih2, ih3, ?_, ?_⟩
    · rw [ih4, hstep]
      simp [List.replicate_succ]
    · rw [ih5, hstep]
      simp
      omega

/-- C5: on transport-level errors flush sleeps one backoff duration per
attempt and resubmits the entire batch unchanged, each attempt carrying
exactly the original records, for as long as the transport error
persists; no attempt drops or shrinks the batch and flush does not
return. -/
theorem c5_transport_retry_unchanged (d : Nat → Nat) (records : List Rec)
    (b : BackoffState) (n : Nat) :
    (flushRun d (initFlush records b) (List.replicate n Outcome.transportError)).pending
      = records
    ∧ (flushRun d (initFlush records b) (List.replicate n Outcome.transportError)).done
      = false
    ∧ (flushRun d (initFlush records b) (List.replicate n Outcome.transportError)).submissions
      = List.replicate n records
    ∧ (flushRun d (initFlush records b) (List.replicate n Outcome.transportError)).sleeps.length
      = n := by
  obtain ⟨h1, h2, _, h4, h5⟩ := flushRun_transport d n (initFlush records b) rfl rfl
  exact ⟨by simpa [initFlush] using h1, h2,
    by simpa [initFlush] using h4, by simpa [initFlush] using h5⟩

/-- C6 counterexample: two partial-failure submissions from the same
fresh backoff state, one with 1 failed record and one with 2, sleep the
same duration 1, so no proportionality constant relates the failed count
to the slept duration. -/
theorem c6_backoff_not_proportional_counterexample :
    (flushStep demoDuration (initFlush [recA] { attempts := 0 })
      (Outcome.result 1 [{ errorCode := some 0 }])).sleeps = [1]
    ∧ (flushStep demoDuration (initFlush [recA, recB] { attempts := 0 })
      (Outcome.result 2 [{ errorCode := some 0 }, { errorCode := some 1 }])).sleeps = [1]
    ∧ ¬ ∃ c : Nat, c * 1 = 1 ∧ c * 2 = 1 := by
  refine ⟨rfl, rfl, ?_⟩
  rintro ⟨c, h1, h2⟩
  omega

/-- C6 amended: on a structured partial failure the failed count is only
logged; the slept duration is Backoff.Duration, a function of the policy
state alone, so the same state with different failed counts sleeps the
same duration. -/
theorem c6_amended_duration_ignores_failed_count (d : Nat → Nat)
    (s : FlushState) (f1 f2 : Nat) (resp1 resp2 : List ResultEntry)
    (hd : s.done = false) (hc : s.crashed = false)
    (h1 : f1 ≠ 0) (h2 : f2 ≠ 0)
    (hl1 : resp1.length ≤ s.pending.length)
    (hl2 : resp2.length ≤ s.pending.length) :
    (flushStep d s (Outcome.result f1 resp1)).sleeps
      = s.sleeps ++ [d s.backoff.attempts]
    ∧ (flushStep d s (Outcome.result f1 resp1)).sleeps
      = (flushStep d s (Outcome.result f2 resp2)).sleeps := by
  have he1 := failures_eq s.pending resp1 hl1
  have he2 := failures_eq s.pending resp2 hl2
  constructor
  · simp [flushStep, hd, hc, h1, he1]
  · simp [flushStep, hd, hc, h1, h2, he1, he2]

theorem c6_witness :
    (flushStep demoDuration (initFlush [recA, recB] { attempts := 3 })
      (Outcome.result 1 [{ errorCode := some 0 }])).sleeps
      = [] ++ [demoDuration 3]
    ∧ (flushStep demoDuration (initFlush [recA, recB] { attempts := 3 })
      (Outcome.result 1 [{ errorCode := some 0 }])).sleeps
      = (flushStep demoDuration (initFlush [recA, recB] { attempts := 3 })
        (Outcome.result 2 [{ errorCode := some 0 }, { errorCode := some 1 }])).sleeps :=
  c6_amended_duration_ignores_failed_count demoDuration
    (initFlush [recA, recB] { attempts := 3 }) 1 2
    [{ errorCode := some 0 }] [{ errorCode := some 0 }, { errorCode := some 1 }]
    rfl rfl (by decide) (by decide) (by decide) (by decide)

/-- C7: a flush attempt whose structured result reports zero failures
resets the backoff counter to the baseline and calls Reset exactly once,
while transport errors and partial failures call Reset on no path, and
the next failing attempt after such a success sleeps the baseline
duration d 0. -/
theorem c7_reset_on_full_success (d : Nat → Nat) (s : FlushState)
    (resp resp2 : List ResultEntry) (f : Nat) (newRecords : List Rec)
    (hd : s.done = false) (hc : s.crashed = false) (hf : f ≠ 0) :
    (flushStep d s (Outcome.result 0 resp)).resets = s.resets + 1
    ∧ (flushStep d s (Outcome.result 0 resp)).backoff.attempts = 0
    ∧ (flushStep d s (Outcome.result 0 resp)).done = true
    ∧ (flushStep d s Outcome.transportError).resets = s.resets
    ∧ (flushStep d s (Outcome.result f resp2)).resets = s.resets
    ∧ (flushStep d (initFlush newRecords (flushStep d s (Outcome.result 0 resp)).backoff)
        Outcome.transportError).sleeps = [d 0] := by
  refine ⟨?_, ?_, ?_, ?_, ?_, ?_⟩
  · simp [flushStep, hd, hc]
  · simp [flushStep, hd, hc]
  · simp [flushStep, hd, hc]
  · simp [flushStep, hd, hc]
  · cases hm : failures s.pending resp2 <;> simp [flushStep, hd, hc, hf, hm]
  · simp [flushStep, initFlush, hd, hc]

theorem c7_witness :
    (flushStep demoDuration (initFlush [recA] { attempts := 2 })
      (Outcome.result 0 [{ errorCode := none }])).resets = 1
    ∧ (flushStep demoDuration (initFlush [recA] { attempts := 2 })
      (Outcome.result 0 [{ errorCode := none }])).backoff.attempts = 0 := by
  have h := c7_reset_on_full_success demoDuration (initFlush [recA] { attempts := 2 })
    [{ errorCode := none }] [{ errorCode := some 4 }] 1 [recB] rfl rfl (by decide)
  exact ⟨h.1, h.2.1⟩

theorem flushRun_nonempty (d : Nat → Nat) (os : List Outcome) :
    ∀ s : FlushState, s.pending ≠ [] → (∀ b ∈ s.submissions, b ≠ []) →
      consistentOutcomes d s os = true →
      ∀ b ∈ (flushRun d s os).submissions, b ≠ [] := by
  induction os with
  | nil => intro s _ hs _ b hb; exact hs b (by simpa [flushRun] using hb)
  | cons o os ih =>
    intro s hp hs hcons b hb
    simp only [consistentOutcomes, Bool.and_eq_true] at hcons
    obtain ⟨hfit, hcons'⟩ := hcons
    have hrun : flushRun d s (o :: os) = flushRun d (flushStep d s o) os := by
      rw [flushRun, List.foldl_cons]
      rfl
    rw [hrun] at hb
    by_cases hdc : (s.done || s.crashed) = true
    · have hstep : flushStep d s o = s := by simp [flushStep, hdc]
      exact ih (flushStep d s o) (by rw [hstep]; exact hp)
        (by rw [hstep]; exact hs) hcons' b hb
    · have hdc' : (s.done || s.crashed) = false := by
        simpa using hdc
      have hsub : ∀ c ∈ s.submissions ++ [s.pending], c ≠ [] := by
        intro c hc
        rcases List.mem_append.mp hc with hc | hc
        · exact hs c hc
        · rw [List.mem_singleton.mp hc]
          exact hp
      cases o with
      | transportError =>
        refine ih (flushStep d s Outcome.transportError) ?_ ?_ hcons' b hb
        · simp [flushStep, hdc', hp]
        · intro c hc
          simp only [flushStep, hdc'] at hc
          exact hsub c (by simpa using hc)
      | result f resp =>
        simp only [Bool.and_eq_true, decide_eq_true_eq] at hfit
        obtain ⟨hlen, hcount⟩ := hfit
        by_cases hf : f = 0
        · refine ih (flushStep d s (Outcome.result f resp)) ?_ ?_ hcons' b hb
          · simp [flushStep, hdc', hf, hp]
          · intro c hc
            simp only [flushStep, hdc', hf] at hc
            exact hsub c (by simpa using hc)
        · have he := failures_eq s.pending resp hlen
          have hlen2 : ((failures s.pending resp).getD []).length = countErr resp := by
            rw [he]
            simpa using filter_zip_length resp s.pending hlen
          refine ih (flushStep d s (Outcome.result f resp)) ?_ ?_ hcons' b hb
          · simp only [flushStep, hdc', hf, he]
            simp only [Bool.false_eq_true, if_false]
            intro hnil
            rw [he] at hlen2
            simp only [Option.getD_some] at hlen2
            rw [hnil] at hlen2
            simp at hlen2
            rw [hcount] at hlen2
            exact hf (by omega)
          · intro c hc
            simp only [flushStep, hdc', hf, he] at hc
            exact hsub c (by simpa using hc)

/-- C8: the submission capability is never invoked with an empty record
list: every batch the loop flushes is nonempty (given a positive
configured count and valid record sizes), and every batch any flush
attempt submits is nonempty, given a nonempty initial batch and
well-formed structured results. -/
theorem c8_no_empty_submission :
    (∀ (bufferSize : Nat) (q : List Rec) (es : List Event),
      1 ≤ bufferSize → (∀ r ∈ q, recSize r ≤ maxRecordSize) →
      ∀ b ∈ (loopRun bufferSize (initLoop q) es).flushed, b ≠ [])
    ∧ (∀ (d : Nat → Nat) (records : List Rec) (b0 : BackoffState)
        (os : List Outcome),
      records ≠ [] → consistentOutcomes d (initFlush records b0) os = true →
      ∀ b ∈ (flushRun d (initFlush records b0) os).submissions, b ≠ []) := by
  constructor
  · intro bufferSize q es hb hq b hmem
    have h := loopRun_inv bufferSize es (initLoop q) (initLoop_inv bufferSize q hb hq)
    exact (h.2.2.2.2 b hmem).2.2
  · intro d records b0 os hne hcons b hb
    exact flushRun_nonempty d os (initFlush records b0) hne
      (by simp [initFlush]) hcons b hb

theorem c8_witness :
    ([recA, recB] : List Rec) ≠ [] ∧ ([recA] : List Rec) ≠ [] := by
  constructor
  · refine c8_no_empty_submission.1 2 [recA, recB, recC]
      [Event.record, Event.record, Event.record] (by omega) ?_ [recA, recB] ?_
    · intro r hr
      simp only [List.mem_cons, List.not_mem_nil, or_false] at hr
      rcases hr with h | h | h <;>
        (rw [h]; norm_num [recSize, recA, recB, recC, maxRecordSize, megaByte])
    · show [recA, recB] ∈ (loopRun 2 (initLoop [recA, recB, recC])
        [Event.record, Event.record, Event.record]).flushed
      show [recA, recB] ∈ ([[recA, recB]] : List (List Rec))
      exact List.mem_singleton.mpr rfl
  · refine c8_no_empty_submission.2 demoDuration [recA] { attempts := 0 }
      [Outcome.result 0 [{ errorCode := none }]] (by decide) (by decide) [recA] ?_
    show [recA] ∈ (flushRun demoDuration (initFlush [recA] { attempts := 0 })
      [Outcome.result 0 [{ errorCode := none }]]).submissions
    show [recA] ∈ ([[recA]] : List (List Rec))
    exact List.mem_singleton.mpr rfl
end Kinesis
